import Mathlib

/-!
Verification development for the credential-authentication subsystem of the
repository (AuthenticationManager): password policy validation, bcrypt-backed
verification, the epoch-guarded (optimistic concurrency) authenticate flow,
lazy hash-cost migration, password setting, the background breach check, and
federated identity linking.

The definitions below are a shallow embedding of the JavaScript source.
Mongo documents are modelled as a list of `User` records; `updateOne` is
`updateFirst` (update the first matching document, report how many documents
were actually modified); callback errors become explicit result values.
-/

/-- The violation codes produced by `validatePassword`
(`info.code` on `InvalidPasswordError`). -/
inductive PasswordErrorCode where
  | not_set
  | too_short
  | too_long
  | invalid_character
  | contains_email
deriving DecidableEq, Repr

/-- Model of a bcrypt hash string: the encoding is self-describing, carrying
the cost (rounds), minor version tag, salt and (abstractly) the hashed
plaintext. `bcrypt` is an external library; we model its documented
interface: `compare` succeeds exactly on the original plaintext and
`getRounds` extracts the embedded cost. -/
structure HashedPw where
  cost : Nat
  minor : String
  salt : Nat
  pw : String
deriving DecidableEq, Repr

/-- A stored user document. `hashedPassword = none` models an absent field;
`password` is the legacy plaintext field that `setUserPasswordInV2` unsets;
`emailConfirmedAt` models `emails[0].confirmedAt`. -/
structure User where
  _id : Nat
  email : String
  first_name : String
  last_name : String
  hashedPassword : Option HashedPw
  password : Option String
  loginEpoch : Nat
  lastFailedLogin : Option Nat
  thirdPartyIdentifiers : List String
  admin : Bool
  emailConfirmedAt : Option Nat
deriving DecidableEq, Repr

/-- `Settings.passwordStrengthOptions.length` -/
structure PSOLength where
  min : Option Nat
  max : Option Nat
deriving DecidableEq, Repr

/-- `Settings.passwordStrengthOptions.chars` -/
structure PSOChars where
  digits : Option String
  letters : Option String
  letters_up : Option String
  symbols : Option String
deriving DecidableEq, Repr

/-- `Settings.passwordStrengthOptions` -/
structure PasswordStrengthOptions where
  allowAnyChars : Option Bool
  length : Option PSOLength
  chars : Option PSOChars
deriving DecidableEq, Repr

/-- The slice of the process-wide `Settings` object this module reads.
`Option` encodes JavaScript `undefined`. -/
structure Settings where
  passwordStrengthOptions : Option PasswordStrengthOptions
  bcryptRounds : Option Nat
  bcryptMinorVersion : Option String
  disableBcryptRoundsUpgrades : Bool
deriving DecidableEq, Repr

/-- JavaScript `x || d` on an optional number: `undefined` and `0` are falsy. -/
def jsOrNat : Option Nat → Nat → Nat
  | none, d => d
  | some 0, d => d
  | some (n + 1), _ => n + 1

/-- JavaScript `x || d` on an optional string: `undefined` and `""` are falsy. -/
def jsOrStr : Option String → String → String
  | none, d => d
  | some s, d => if s = "" then d else s

/-- Does `needle` occur as a contiguous sublist of the second argument? -/
def listContainsSub (needle : List Char) : List Char → Bool
  | [] => needle.isEmpty
  | c :: rest => needle.isPrefixOf (c :: rest) || listContainsSub needle rest

/-- JavaScript `hay.indexOf(needle) !== -1`: substring containment. -/
def strContains (hay needle : String) : Bool :=
  listContainsSub needle.toList hay.toList

/-- `BCRYPT_ROUNDS = Settings.security.bcryptRounds || 12` -/
def BCRYPT_ROUNDS (s : Settings) : Nat := jsOrNat s.bcryptRounds 12

/-- `BCRYPT_MINOR_VERSION = Settings.security.bcryptMinorVersion || 'a'` -/
def BCRYPT_MINOR_VERSION (s : Settings) : String := jsOrStr s.bcryptMinorVersion "a"

/-- `bcrypt.hash(password, salt)` where the salt was generated by
`bcrypt.genSalt(BCRYPT_ROUNDS, BCRYPT_MINOR_VERSION)`: the produced hash
embeds the configured cost, minor version and the fresh salt. -/
def bcryptHash (s : Settings) (salt : Nat) (password : String) : HashedPw :=
  { cost := BCRYPT_ROUNDS s, minor := BCRYPT_MINOR_VERSION s, salt := salt, pw := password }

/-- `bcrypt.compare(password, hash)` -/
def bcryptCompare (password : String) (h : HashedPw) : Bool :=
  password == h.pw

/-- `bcrypt.getRounds(hash)` -/
def bcryptGetRounds (h : HashedPw) : Nat := h.cost

/-- `AuthenticationManager.hashPassword`: genSalt then hash. -/
def hashPassword (s : Settings) (salt : Nat) (password : String) : HashedPw :=
  bcryptHash s salt password

/-- `AuthenticationManager._passwordCharactersAreValid`: every character of
the password must appear in one of the four configured character-class
strings (each falling back to its default when unset or empty). -/
def _passwordCharactersAreValid (s : Settings) (password : String) : Bool :=
  let cs := s.passwordStrengthOptions.bind (fun p => p.chars)
  let digits := jsOrStr (cs.bind (fun c => c.digits)) "1234567890"
  let letters := jsOrStr (cs.bind (fun c => c.letters)) "abcdefghijklmnopqrstuvwxyz"
  let lettersUp := jsOrStr (cs.bind (fun c => c.letters_up)) "ABCDEFGHIJKLMNOPQRSTUVWXYZ"
  let symbols := jsOrStr (cs.bind (fun c => c.symbols)) "@#$%^&*()-_=+[]\x7b\x7d;:<>/?!£€.,"
  password.toList.all fun ch =>
    digits.toList.contains ch || letters.toList.contains ch ||
      lettersUp.toList.contains ch || symbols.toList.contains ch

/-- `AuthenticationManager.validatePassword(password, email)`.
`password = none` models a `null`/`undefined` argument (the JS `== null`
check); `email = none` models a non-string email (`typeof email ===
'string'` fails). Returns the violation code, or `none` when valid. -/
def validatePassword (s : Settings) (password : Option String)
    (email : Option String) : Option PasswordErrorCode :=
  match password with
  | none => some .not_set
  | some pw =>
    let allowAnyChars : Bool :=
      match s.passwordStrengthOptions with
      | some pso => pso.allowAnyChars = some true
      | none => false
    let lenOpt := s.passwordStrengthOptions.bind (fun p => p.length)
    let minLen := jsOrNat (lenOpt.bind (fun l => l.min)) 6
    let maxRaw := jsOrNat (lenOpt.bind (fun l => l.max)) 72
    let maxLen := if maxRaw > 72 then 72 else maxRaw
    if pw.length < minLen then some .too_short
    else if pw.length > maxLen then some .too_long
    else if !allowAnyChars && !(_passwordCharactersAreValid s pw) then
      some .invalid_character
    else
      match email with
      | some e =>
        if e ≠ "" then
          -- JS `email.split('@')[0]`: the part before the first '@'
          let startOfEmail := String.mk (e.toList.takeWhile (fun c => c ≠ '@'))
          if strContains pw e || strContains pw startOfEmail then
            some .contains_email
          else none
        else none
      | none => none

/-- A `Settings` value with everything unset: all defaults apply
(min 6, max 72, character classes at their defaults, rounds 12). -/
def defaultSettings : Settings :=
  { passwordStrengthOptions := none, bcryptRounds := none,
    bcryptMinorVersion := none, disableBcryptRoundsUpgrades := false }

example : validatePassword defaultSettings (some "abc") (some "a@b.com") =
    some .too_short := by decide

example : validatePassword defaultSettings (some "") (some "a@b.com") =
    some .too_short := by decide

example : validatePassword defaultSettings none (some "a@b.com") =
    some .not_set := by decide

example : validatePassword defaultSettings (some "correct-horse99")
    (some "correct-horse@example.com") = some .contains_email := by decide

/-! ## Store model and observable events -/

/-- Observable store/side-effect actions of a single call, in execution
order. `callbackEv` marks the point at which the operation delivers its
primary result to the caller's callback. -/
inductive Event where
  /-- `User.updateOne({_id, loginEpoch}, {$inc: {loginEpoch: 1}, ...})`:
  the conditioned (epoch-guarded) update, recording the id, the epoch
  observed at fetch time, and the `lastFailedLogin` value set (if any). -/
  | condUpdateEv (id : Nat) (expectedEpoch : Nat) (setLastFailed : Option Nat)
  /-- `db.users.updateOne({_id}, {$set: {hashedPassword}, $unset: {password}})`:
  the unconditioned password write. -/
  | uncondUpdateEv (id : Nat)
  /-- the operation invokes its caller-supplied callback (result delivered) -/
  | callbackEv
  /-- `HaveIBeenPwned.checkPasswordForReuseInBackground` is invoked -/
  | breachCheckEv
deriving DecidableEq, Repr

/-- Errors surfaced through the first callback argument. -/
inductive AuthError where
  /-- `new Error('invalid user object')` -/
  | invalidUser
  /-- `InvalidPasswordError` with its violation code -/
  | invalidPassword (code : PasswordErrorCode)
  /-- `ParallelLoginError` -/
  | parallelLogin
deriving DecidableEq, Repr

/-- Outcome of `authenticate`: `callback(err)`, `callback(null, null)`
(generic failure) or `callback(null, user)`. -/
inductive AuthResult where
  | err (e : AuthError)
  | failure
  | success (u : User)
deriving DecidableEq, Repr

/-- `User.findOne(query)`: first document matching the query. -/
def findOne (db : List User) (q : User → Bool) : Option User :=
  db.find? q

/-- `updateOne(filter, update)`: apply `f` to the first document matching
`p`; the second component is the number of documents actually modified
(`nModified` / `modifiedCount`): 1 when a document matched and changed,
0 otherwise. -/
def updateFirst (db : List User) (p : User → Bool) (f : User → User) :
    List User × Nat :=
  match db with
  | [] => ([], 0)
  | u :: rest =>
    if p u then
      (f u :: rest, if f u = u then 0 else 1)
    else
      let r := updateFirst rest p f
      (u :: r.1, r.2)

/-- `_checkWriteResult`: `result && result.modifiedCount === 1`. -/
def _checkWriteResult (modifiedCount : Nat) : Bool :=
  modifiedCount == 1

/-- Modelled from the spec: `HaveIBeenPwned.checkPasswordForReuseInBackground`
is code of the repository that is not under src/ (only its caller is here).
Per the spec (§4.3), it is fire-and-forget: it never returns a result to the
caller and never raises into the caller's control flow; any internal failure
(`breachOk = false`) is swallowed and only logged. The model therefore
records only the invocation event, independent of the outcome. -/
def checkPasswordForReuseInBackground (_breachOk : Bool) (_password : String) :
    List Event :=
  [Event.breachCheckEv]

deriving instance DecidableEq for Except

/-- Result of a callback-style step: the delivered result, the store after
the step, the events that occur before the step invokes its callback, and
the events that occur after it. -/
structure StepOut (α : Type) where
  result : Except AuthError α
  db : List User
  pre : List Event
  post : List Event
deriving Repr

/-- The trace of a step operation when it is run as a top-level call:
its own callback invocation sits between its pre- and post-events. -/
def opEvents {α : Type} (o : StepOut α) : List Event :=
  o.pre ++ Event.callbackEv :: o.post

/-- `$set: {hashedPassword: hash}, $unset: {password: true}` applied to a
document. -/
def applyPasswordPatch (h : HashedPw) (u : User) : User :=
  { u with hashedPassword := some h, password := none }

/-- The filter `{ _id: user._id, loginEpoch: user.loginEpoch }` of the
conditioned update: same id and the epoch observed at fetch time. -/
def casFilter (u v : User) : Bool :=
  v._id == u._id && v.loginEpoch == u.loginEpoch

/-- The conditioned update document `{$inc: {loginEpoch: 1}}`, plus
`$set: {lastFailedLogin: now}` when the password did not match. -/
def epochBump (matched : Bool) (now : Nat) (v : User) : User :=
  { v with loginEpoch := v.loginEpoch + 1,
           lastFailedLogin := if matched then v.lastFailedLogin else some now }

/-- `AuthenticationManager.setUserPasswordInV2(user, password, callback)`:
guard the user object, validate the password against policy, hash it, then
issue one unconditioned update setting `hashedPassword` and unsetting the
legacy `password` field; after the callback has been invoked (via
`_checkWriteResult`), fire the background breach check. `salt` stands for
the fresh salt produced by `bcrypt.genSalt`. -/
def setUserPasswordInV2 (s : Settings) (db : List User) (user : Option User)
    (password : Option String) (salt : Nat) (breachOk : Bool) : StepOut Bool :=
  match user with
  | none => ⟨.error .invalidUser, db, [], []⟩
  | some u =>
    if u.email = "" ∨ u._id = 0 then ⟨.error .invalidUser, db, [], []⟩
    else
      match validatePassword s password (some u.email) with
      | some code => ⟨.error (.invalidPassword code), db, [], []⟩
      | none =>
        match password with
        | none =>
          -- unreachable: `validatePassword` rejects a null password
          ⟨.error (.invalidPassword .not_set), db, [], []⟩
        | some pw =>
          let h := hashPassword s salt pw
          let r := updateFirst db (fun v => v._id == u._id) (applyPasswordPatch h)
          ⟨.ok (_checkWriteResult r.2), r.1, [Event.uncondUpdateEv u._id],
            checkPasswordForReuseInBackground breachOk pw⟩

/-- `AuthenticationManager.setUserPassword` delegates to `setUserPasswordInV2`. -/
def setUserPassword (s : Settings) (db : List User) (user : Option User)
    (password : Option String) (salt : Nat) (breachOk : Bool) : StepOut Bool :=
  setUserPasswordInV2 s db user password salt breachOk

/-- `AuthenticationManager.checkRounds(user, hashedPassword, password, callback)`:
no-op when upgrades are administratively disabled or the stored cost is not
below the target; otherwise re-set the user's password at the current
target cost. -/
def checkRounds (s : Settings) (db : List User) (user : User)
    (hashedPassword : HashedPw) (password : String) (salt : Nat)
    (breachOk : Bool) : StepOut Unit :=
  if s.disableBcryptRoundsUpgrades then ⟨.ok (), db, [], []⟩
  else if bcryptGetRounds hashedPassword < BCRYPT_ROUNDS s then
    let r := setUserPassword s db (some user) (some password) salt breachOk
    ⟨r.result.map (fun _ => ()), r.db, r.pre, r.post⟩
  else ⟨.ok (), db, [], []⟩

/-- `AuthenticationManager.authenticate(query, password, callback)`, with the
read and the conditioned write decoupled so that concurrent interleavings
can be expressed: the fetch runs against `dbFetch`, the epoch-conditioned
write against `dbWrite` (a sequential, uncontended call has
`dbFetch = dbWrite`, see `authenticate`). `now` is the current time for
`lastFailedLogin`; `salt` the fresh salt for a potential hash upgrade.
Returns the delivered result, the store after the call, and the ordered
event trace. -/
def authenticateWith (s : Settings) (dbFetch dbWrite : List User)
    (q : User → Bool) (password : String) (now salt : Nat) (breachOk : Bool) :
    AuthResult × List User × List Event :=
  match findOne dbFetch q with
  | none => (.failure, dbWrite, [Event.callbackEv])
  | some user =>
    match user.hashedPassword with
    | none => (.failure, dbWrite, [Event.callbackEv])
    | some hp =>
      let matched := bcryptCompare password hp
      let setFailed : Option Nat := if matched then none else some now
      let r := updateFirst dbWrite (casFilter user) (epochBump matched now)
      let ev0 := [Event.condUpdateEv user._id user.loginEpoch setFailed]
      if r.2 ≠ 1 then (.err .parallelLogin, r.1, ev0 ++ [Event.callbackEv])
      else if !matched then (.failure, r.1, ev0 ++ [Event.callbackEv])
      else
        let c := checkRounds s r.1 user hp password salt breachOk
        match c.result with
        | .error e => (.err e, c.db, ev0 ++ c.pre ++ Event.callbackEv :: c.post)
        | .ok _ =>
          (.success user, c.db,
            ev0 ++ c.pre ++ Event.callbackEv ::
              (checkPasswordForReuseInBackground breachOk password ++ c.post))

/-- A sequential (uncontended) `authenticate` call: nothing intervenes
between the fetch and the conditioned write. -/
def authenticate (s : Settings) (db : List User) (q : User → Bool)
    (password : String) (now salt : Nat) (breachOk : Bool) :
    AuthResult × List User × List Event :=
  authenticateWith s db db q password now salt breachOk

/-! ## Identity linking (passport login) -/

/-- The identity-provider claims consumed by `doPassportLogin`. -/
structure Claims where
  sub : String
  email : String
  given_name : String
  family_name : String
deriving DecidableEq, Repr

/-- Modelled from the spec: `UserRegistrationHandler.registerNewUser` is code
of the repository that is not under src/ (only its caller is here). Per the
spec (§3 Lifecycle, §4.5, §6), the registration collaborator creates and
persists a new Account from the supplied profile fields, storing the
placeholder password as an adaptive hash (so `hashedPassword` is present),
with no external identifiers linked yet. `newId` is the store-assigned id. -/
def registerNewUser (s : Settings) (db : List User) (newId : Nat)
    (email first_name last_name password : String) (salt : Nat) :
    List User × User :=
  let u : User :=
    { _id := newId, email := email, first_name := first_name,
      last_name := last_name,
      hashedPassword := some (hashPassword s salt password),
      password := none, loginEpoch := 0, lastFailedLogin := none,
      thirdPartyIdentifiers := [], admin := false, emailConfirmedAt := none }
  (db ++ [u], u)

/-- `user.save()`: persist the (mutated) document over the stored one with
the same `_id`. -/
def saveUser (db : List User) (u : User) : List User :=
  (updateFirst db (fun v => v._id == u._id) (fun _ => u)).1

/-- The document `registerNewUser` persists for given claims (before the
linking save). -/
def registeredUser (s : Settings) (claims : Claims) (newId salt : Nat)
    (pass : String) : User :=
  (registerNewUser s [] newId claims.email claims.given_name
    claims.family_name pass salt).2

/-- The document after `createIfNotExistAndLogin` mutates the fresh
registration (non-admin, confirmed email, subject identifier linked). -/
def linkedUser (s : Settings) (claims : Claims) (newId salt now : Nat)
    (pass : String) : User :=
  { registeredUser s claims newId salt pass with
    admin := false, emailConfirmedAt := some now,
    thirdPartyIdentifiers := [claims.sub] }

/-- The profile overwrite applied to an existing linked account. -/
def profileUpdate (claims : Claims) (u : User) : User :=
  { u with email := claims.email, first_name := claims.given_name,
           last_name := claims.family_name }

/-- Outcome of the passport-login path: `callback(err)` or
`callback(null, result)`. -/
inductive LinkResult where
  | err
  | ok (u : User)
deriving DecidableEq, Repr

/-- `AuthenticationManager.createIfNotExistAndLogin(user, claims, query, callback)`:
when no user was found (or the found user has no `hashedPassword`), register
a fresh account with a random placeholder password (`pass`), then mark it
non-admin, confirm its email (`Date.now()` is `now`) and push the subject
identifier, and save; otherwise overwrite the profile fields from the claims
and save. `saveOk` models whether the final `user.save()` write succeeds
(`false`: the save reports an error and persists nothing). -/
def createIfNotExistAndLogin (s : Settings) (db : List User)
    (user : Option User) (claims : Claims) (newId salt now : Nat)
    (pass : String) (saveOk : Bool) : LinkResult × List User :=
  let needsCreate : Bool :=
    match user with
    | none => true
    | some u => u.hashedPassword = none
  if needsCreate then
    let r := registerNewUser s db newId claims.email claims.given_name
      claims.family_name pass salt
    let u' :=
      { r.2 with
        admin := false, emailConfirmedAt := some now,
        thirdPartyIdentifiers := r.2.thirdPartyIdentifiers ++ [claims.sub] }
    if saveOk then (.ok u', saveUser r.1 u') else (.err, r.1)
  else
    match user with
    | some u =>
      -- overwrite `email`, `first_name`, `last_name` from the claims, then save
      let u' := profileUpdate claims u
      if saveOk then (.ok u', saveUser db u') else (.err, db)
    | none => (.err, db)  -- unreachable: `needsCreate` is true when `user` is absent

/-- `AuthenticationManager.doPassportLogin(claims, callback)`: look the user
up by `thirdPartyIdentifiers: claims.sub` and delegate. -/
def doPassportLogin (s : Settings) (db : List User) (claims : Claims)
    (newId salt now : Nat) (pass : String) (saveOk : Bool) :
    LinkResult × List User :=
  let user := findOne db (fun u => u.thirdPartyIdentifiers.contains claims.sub)
  createIfNotExistAndLogin s db user claims newId salt now pass saveOk

/-! ## Spec-side definitions (for comparison with the source translation) -/

/-- The configured minimum length, default 6 (spec §4.1 check 2). -/
def specMin (s : Settings) : Nat :=
  jsOrNat ((s.passwordStrengthOptions.bind (fun p => p.length)).bind
    (fun l => l.min)) 6

/-- The effective maximum length `min(configured_max, 72)` (spec §4.1 check 3). -/
def specMax (s : Settings) : Nat :=
  min (jsOrNat ((s.passwordStrengthOptions.bind (fun p => p.length)).bind
    (fun l => l.max)) 72) 72

/-- Whether character-class restriction is inactive (spec §4.1 check 4). -/
def specAllowAnyChars (s : Settings) : Bool :=
  match s.passwordStrengthOptions with
  | some pso => pso.allowAnyChars = some true
  | none => false

/-- Spec §4.1 check 5: the password contains the full email string or the
substring preceding the `@` as a literal substring (only for a nonempty
string email). -/
def specContainsEmailPart (pw : String) (email : Option String) : Bool :=
  match email with
  | some e =>
    e ≠ "" && (strContains pw e ||
      strContains pw (String.mk (e.toList.takeWhile (fun c => c ≠ '@'))))
  | none => false

/-- The spec's ordered list of violated checks (§4.1): `not_set`,
`too_short`, `too_long`, `invalid_character`, `contains_email`, each
judged independently of the others; the reported code must be the head. -/
def specViolations (s : Settings) (password email : Option String) :
    List PasswordErrorCode :=
  match password with
  | none => [.not_set]
  | some pw =>
    (if pw.length < specMin s then [PasswordErrorCode.too_short] else []) ++
    (if pw.length > specMax s then [PasswordErrorCode.too_long] else []) ++
    (if !specAllowAnyChars s && !_passwordCharactersAreValid s pw then
      [PasswordErrorCode.invalid_character] else []) ++
    (if specContainsEmailPart pw email then [PasswordErrorCode.contains_email]
     else [])

/-- "loginEpoch only increases": every stored document's epoch is pointwise
nondecreasing across a call; a call may additionally append newly created
documents at the end. -/
def epochsNondecreasing (dbIn dbOut : List User) : Prop :=
  ∃ core ext, dbOut = core ++ ext ∧
    List.Forall₂ (fun a b => a.loginEpoch ≤ b.loginEpoch) dbIn core

/-- Is an event the epoch-conditioned update? -/
def isCondUpdate : Event → Bool
  | .condUpdateEv _ _ _ => true
  | _ => false

/-! ## Concrete inputs used by the witnesses -/

/-- An account with a full-cost hash for the password `Secret99`. -/
def uA : User :=
  { _id := 1, email := "u@x.io", first_name := "U", last_name := "S",
    hashedPassword := some { cost := 12, minor := "a", salt := 7, pw := "Secret99" },
    password := none, loginEpoch := 5, lastFailedLogin := none,
    thirdPartyIdentifiers := [], admin := false, emailConfirmedAt := none }

/-- Like `uA` but with a low-cost (4 rounds) hash, subject to migration. -/
def uB : User :=
  { uA with _id := 2,
            hashedPassword := some { cost := 4, minor := "a", salt := 7, pw := "Secret99" } }

/-- An account with no `hashedPassword` (external-identity-only). -/
def uC : User :=
  { uA with _id := 3, email := "c3@x.io", hashedPassword := none }

/-- Identity-provider claims for the linker witnesses. -/
def clW : Claims :=
  { sub := "prov|7", email := "c@x.io", given_name := "C", family_name := "L" }

/-! ## Helper lemmas -/

theorem jsOrNat_pos (o : Option Nat) (d : Nat) (hd : 0 < d) : 0 < jsOrNat o d := by
  cases o with
  | none => simpa [jsOrNat] using hd
  | some n =>
    cases n with
    | zero => simpa [jsOrNat] using hd
    | succ k => simp [jsOrNat]

theorem find?_append_cons (pre suf : List User) (u : User) (p : User → Bool)
    (hpre : ∀ v ∈ pre, p v = false) (hu : p u = true) :
    (pre ++ u :: suf).find? p = some u := by
  induction pre with
  | nil => simp [List.find?_cons_of_pos, hu]
  | cons a t ih =>
    have ha := hpre a (by simp)
    rw [List.cons_append, List.find?_cons_of_neg _ (by simp [ha])]
    exact ih (fun v hv => hpre v (by simp [hv]))

theorem updateFirst_nomatch (db : List User) (p : User → Bool) (f : User → User)
    (h : ∀ v ∈ db, p v = false) : updateFirst db p f = (db, 0) := by
  induction db with
  | nil => rfl
  | cons a t ih =>
    have ha := h a (by simp)
    have ht := ih (fun v hv => h v (by simp [hv]))
    simp [updateFirst, ha, ht]

theorem updateFirst_append_cons (pre suf : List User) (u : User)
    (p : User → Bool) (f : User → User)
    (hpre : ∀ v ∈ pre, p v = false) (hu : p u = true) :
    updateFirst (pre ++ u :: suf) p f =
      (pre ++ f u :: suf, if f u = u then 0 else 1) := by
  induction pre with
  | nil => simp [updateFirst, hu]
  | cons a t ih =>
    have ha := hpre a (by simp)
    have ht := ih (fun v hv => hpre v (by simp [hv]))
    simp [updateFirst, ha, ht]

theorem updateFirst_forall2 (db : List User) (p : User → Bool) (f : User → User) :
    List.Forall₂ (fun a b => b = a ∨ b = f a) db (updateFirst db p f).1 := by
  induction db with
  | nil => simp [updateFirst]
  | cons a t ih =>
    by_cases h : p a = true
    · simp only [updateFirst, h, if_true]
      exact List.Forall₂.cons (Or.inr rfl)
        (List.forall₂_same.mpr (fun x _ => Or.inl rfl))
    · simp only [updateFirst, eq_false_of_ne_true h, if_false]
      exact List.Forall₂.cons (Or.inl rfl) ih

theorem updateFirst_epochs_le (db : List User) (p : User → Bool) (f : User → User)
    (hf : ∀ v, v.loginEpoch ≤ (f v).loginEpoch) :
    List.Forall₂ (fun a b => a.loginEpoch ≤ b.loginEpoch) db (updateFirst db p f).1 := by
  refine (updateFirst_forall2 db p f).imp ?_
  rintro a b (rfl | rfl)
  · exact le_refl _
  · exact hf a

theorem forall2_epoch_le_trans {l1 l2 l3 : List User}
    (h12 : List.Forall₂ (fun a b => a.loginEpoch ≤ b.loginEpoch) l1 l2)
    (h23 : List.Forall₂ (fun a b => a.loginEpoch ≤ b.loginEpoch) l2 l3) :
    List.Forall₂ (fun a b => a.loginEpoch ≤ b.loginEpoch) l1 l3 := by
  induction h12 generalizing l3 with
  | nil => cases h23; exact .nil
  | cons h t ih =>
    cases h23 with
    | cons h2 t2 => exact .cons (le_trans h h2) (ih t2)

theorem nodup_ids_decomp (db : List User) (u : User) (hmem : u ∈ db)
    (hnd : (db.map User._id).Nodup) :
    ∃ pre suf, db = pre ++ u :: suf ∧ (∀ v ∈ pre, v._id ≠ u._id) ∧
      (∀ v ∈ suf, v._id ≠ u._id) := by
  obtain ⟨pre, suf, rfl⟩ := List.append_of_mem hmem
  rw [List.map_append, List.map_cons, List.nodup_append] at hnd
  obtain ⟨h1, h2, h3⟩ := hnd
  rw [List.nodup_cons] at h2
  refine ⟨pre, suf, rfl, ?_, ?_⟩
  · intro v hv heq
    exact h3 (List.mem_map.mpr ⟨v, hv, heq⟩) (by simp)
  · intro v hv heq
    exact h2.1 (List.mem_map.mpr ⟨v, hv, heq⟩)

theorem epochBump_ne (m : Bool) (now : Nat) (v : User) : epochBump m now v ≠ v := by
  intro h
  have := congrArg User.loginEpoch h
  simp [epochBump] at this

theorem epochBump_epoch (m : Bool) (now : Nat) (v : User) :
    (epochBump m now v).loginEpoch = v.loginEpoch + 1 := rfl

theorem epochBump_id (m : Bool) (now : Nat) (v : User) :
    (epochBump m now v)._id = v._id := rfl

theorem applyPasswordPatch_epoch (h : HashedPw) (v : User) :
    (applyPasswordPatch h v).loginEpoch = v.loginEpoch := rfl

theorem applyPasswordPatch_id (h : HashedPw) (v : User) :
    (applyPasswordPatch h v)._id = v._id := rfl

theorem casFilter_self (u : User) : casFilter u u = true := by
  simp [casFilter]

theorem casFilter_eq_true_iff (u v : User) :
    casFilter u v = true ↔ v._id = u._id ∧ v.loginEpoch = u.loginEpoch := by
  simp [casFilter]

theorem authenticateWith_not_found (s : Settings) (dbF dbW : List User)
    (q : User → Bool) (pw : String) (now salt : Nat) (bOk : Bool)
    (h : findOne dbF q = none) :
    authenticateWith s dbF dbW q pw now salt bOk =
      (.failure, dbW, [Event.callbackEv]) := by
  simp [authenticateWith, h]

theorem authenticateWith_no_hash (s : Settings) (dbF dbW : List User)
    (q : User → Bool) (pw : String) (now salt : Nat) (bOk : Bool) (u : User)
    (hfind : findOne dbF q = some u) (hhp : u.hashedPassword = none) :
    authenticateWith s dbF dbW q pw now salt bOk =
      (.failure, dbW, [Event.callbackEv]) := by
  simp [authenticateWith, hfind, hhp]

theorem authenticateWith_cas_zero (s : Settings) (dbF dbW : List User)
    (q : User → Bool) (pw : String) (now salt : Nat) (bOk : Bool)
    (u : User) (hp : HashedPw)
    (hfind : findOne dbF q = some u) (hhp : u.hashedPassword = some hp)
    (hnomatch : ∀ v ∈ dbW, casFilter u v = false) :
    authenticateWith s dbF dbW q pw now salt bOk =
      (.err .parallelLogin, dbW,
        [Event.condUpdateEv u._id u.loginEpoch
          (if bcryptCompare pw hp then none else some now),
         Event.callbackEv]) := by
  simp [authenticateWith, hfind, hhp,
    updateFirst_nomatch dbW (casFilter u) _ hnomatch]

theorem authenticateWith_cas_hit_mismatch (s : Settings) (dbF : List User)
    (pre suf : List User) (w u : User) (hp : HashedPw) (q : User → Bool)
    (pw : String) (now salt : Nat) (bOk : Bool)
    (hfind : findOne dbF q = some u) (hhp : u.hashedPassword = some hp)
    (hmatch : bcryptCompare pw hp = false)
    (hpre : ∀ v ∈ pre, casFilter u v = false) (hw : casFilter u w = true) :
    authenticateWith s dbF (pre ++ w :: suf) q pw now salt bOk =
      (.failure, pre ++ epochBump false now w :: suf,
        [Event.condUpdateEv u._id u.loginEpoch (some now), Event.callbackEv]) := by
  have hne := epochBump_ne false now w
  simp [authenticateWith, hfind, hhp, hmatch,
    updateFirst_append_cons pre suf w (casFilter u) (epochBump false now) hpre hw, hne]

theorem authenticateWith_cas_hit_match (s : Settings) (dbF : List User)
    (pre suf : List User) (w u : User) (hp : HashedPw) (q : User → Bool)
    (pw : String) (now salt : Nat) (bOk : Bool)
    (hfind : findOne dbF q = some u) (hhp : u.hashedPassword = some hp)
    (hmatch : bcryptCompare pw hp = true)
    (hpre : ∀ v ∈ pre, casFilter u v = false) (hw : casFilter u w = true) :
    authenticateWith s dbF (pre ++ w :: suf) q pw now salt bOk =
      (let c := checkRounds s (pre ++ epochBump true now w :: suf) u hp pw salt bOk
       match c.result with
       | .error e => (.err e, c.db,
           Event.condUpdateEv u._id u.loginEpoch none ::
             (c.pre ++ Event.callbackEv :: c.post))
       | .ok _ => (.success u, c.db,
           Event.condUpdateEv u._id u.loginEpoch none ::
             (c.pre ++ Event.callbackEv :: Event.breachCheckEv :: c.post))) := by
  have hne := epochBump_ne true now w
  simp only [authenticateWith, hfind, hhp, hmatch,
    updateFirst_append_cons pre suf w (casFilter u) (epochBump true now) hpre hw]
  simp [hne, checkPasswordForReuseInBackground]

theorem checkRounds_skip (s : Settings) (db : List User) (user : User)
    (hp : HashedPw) (pw : String) (salt : Nat) (bOk : Bool)
    (h : s.disableBcryptRoundsUpgrades = true ∨ ¬ bcryptGetRounds hp < BCRYPT_ROUNDS s) :
    checkRounds s db user hp pw salt bOk = ⟨.ok (), db, [], []⟩ := by
  rcases h with h | h
  · simp [checkRounds, h]
  · by_cases hd : s.disableBcryptRoundsUpgrades <;> simp [checkRounds, hd, h]

theorem checkRounds_upgrade (s : Settings) (db : List User) (user : User)
    (hp : HashedPw) (pw : String) (salt : Nat) (bOk : Bool)
    (hd : s.disableBcryptRoundsUpgrades = false)
    (hlt : bcryptGetRounds hp < BCRYPT_ROUNDS s) :
    checkRounds s db user hp pw salt bOk =
      (let r := setUserPasswordInV2 s db (some user) (some pw) salt bOk
       ⟨r.result.map (fun _ => ()), r.db, r.pre, r.post⟩) := by
  simp [checkRounds, hd, hlt, setUserPassword]

theorem setUserPasswordInV2_invalid_user (s : Settings) (db : List User)
    (u : User) (password : Option String) (salt : Nat) (bOk : Bool)
    (h : u.email = "" ∨ u._id = 0) :
    setUserPasswordInV2 s db (some u) password salt bOk =
      ⟨.error .invalidUser, db, [], []⟩ := by
  simp [setUserPasswordInV2, h]

theorem setUserPasswordInV2_invalid_password (s : Settings) (db : List User)
    (u : User) (password : Option String) (salt : Nat) (bOk : Bool)
    (code : PasswordErrorCode)
    (hemail : ¬ (u.email = "" ∨ u._id = 0))
    (hval : validatePassword s password (some u.email) = some code) :
    setUserPasswordInV2 s db (some u) password salt bOk =
      ⟨.error (.invalidPassword code), db, [], []⟩ := by
  rcases password with _ | pw
  · have : code = .not_set := by
      have h0 : some PasswordErrorCode.not_set = some code := by
        simpa [validatePassword] using hval
      exact (Option.some.inj h0).symm
    simp [setUserPasswordInV2, hemail, hval, this]
  · simp [setUserPasswordInV2, hemail, hval]

theorem setUserPasswordInV2_write (s : Settings) (db : List User) (u : User)
    (pw : String) (salt : Nat) (bOk : Bool)
    (hemail : ¬ (u.email = "" ∨ u._id = 0))
    (hval : validatePassword s (some pw) (some u.email) = none) :
    setUserPasswordInV2 s db (some u) (some pw) salt bOk =
      (let r := updateFirst db (fun v => v._id == u._id)
         (applyPasswordPatch (hashPassword s salt pw))
       ⟨.ok (_checkWriteResult r.2), r.1, [Event.uncondUpdateEv u._id],
        [Event.breachCheckEv]⟩) := by
  simp [setUserPasswordInV2, hemail, hval, checkPasswordForReuseInBackground]

theorem ite_gt_72 (x : Nat) : (if x > 72 then 72 else x) = min x 72 := by
  split <;> omega

theorem validatePassword_normal_form (s : Settings) (pw : String)
    (email : Option String) :
    validatePassword s (some pw) email =
      (if pw.length < specMin s then some PasswordErrorCode.too_short
       else if pw.length > specMax s then some PasswordErrorCode.too_long
       else if !specAllowAnyChars s && !_passwordCharactersAreValid s pw then
         some PasswordErrorCode.invalid_character
       else if specContainsEmailPart pw email then
         some PasswordErrorCode.contains_email
       else none) := by
  simp only [validatePassword, specMin, specMax, specAllowAnyChars,
    specContainsEmailPart, ite_gt_72]
  rcases email with _ | e
  · simp
  · by_cases he : e = "" <;> simp [he]

/-! ## Claim theorems -/

/-- C4 counterexample: the claim "validate applied to an empty password
yields the not_set violation code" is false on the code: the
`password == null` guard does not catch the empty string, so an
empty-string password falls through to the length check and reports
`too_short`, not `not_set`. -/
theorem validatePassword_empty_string_cex :
    validatePassword defaultSettings (some "") (some "a@b.com") =
      some PasswordErrorCode.too_short ∧
    validatePassword defaultSettings (some "") (some "a@b.com") ≠
      some PasswordErrorCode.not_set := by
  decide

/-- C4 (amended): validate applied to an absent (null) password yields
`not_set`; an empty-string password instead yields `too_short` (the
effective minimum length is at least 1 under every configuration, so the
empty string always violates it), the `not_set` check firing only for an
absent password. -/
theorem validatePassword_null_not_set_empty_too_short (s : Settings)
    (email : Option String) :
    validatePassword s none email = some PasswordErrorCode.not_set ∧
    validatePassword s (some "") email = some PasswordErrorCode.too_short := by
  refine ⟨rfl, ?_⟩
  have hmin : 0 < jsOrNat ((s.passwordStrengthOptions.bind
      (fun p => p.length)).bind (fun l => l.min)) 6 :=
    jsOrNat_pos _ _ (by omega)
  simp [validatePassword, hmin]

/-- C5: `validatePassword` runs its checks in the strict order `not_set`,
`too_short`, `too_long`, `invalid_character`, `contains_email`,
short-circuiting on the first failure: the reported code is always the
head of the spec's ordered violation list (`specViolations`); in
particular a password shorter than the configured minimum that also
contains the email yields `too_short`, not `contains_email`. -/
theorem validatePassword_strict_order (s : Settings)
    (password email : Option String) :
    validatePassword s password email =
      (specViolations s password email).head? ∧
    (∀ pw, password = some pw → pw.length < specMin s →
      specContainsEmailPart pw email = true →
      validatePassword s password email = some PasswordErrorCode.too_short) := by
  have hmain : validatePassword s password email =
      (specViolations s password email).head? := by
    cases password with
    | none => rfl
    | some pw =>
      rw [validatePassword_normal_form]
      simp only [specViolations]
      by_cases h1 : pw.length < specMin s
      · simp [h1]
      · by_cases h2 : pw.length > specMax s
        · simp [h1, h2]
        · by_cases h3 : (!specAllowAnyChars s && !_passwordCharactersAreValid s pw) = true
          · simp [h1, h2, h3]
          · by_cases h4 : specContainsEmailPart pw email = true
            · simp [h1, h2, h3, h4]
            · simp [h1, h2, h3, h4]
  refine ⟨hmain, ?_⟩
  rintro pw rfl hlen hce
  rw [hmain]
  simp [specViolations, hlen]

/-- Witness for C5 at a concrete input: `"ab@c"` is shorter than the
default minimum 6 and contains the local part of `"ab@c.de"`, and the
reported code is `too_short`. -/
theorem validatePassword_strict_order_witness :
    validatePassword defaultSettings (some "ab@c") (some "ab@c.de") =
      some PasswordErrorCode.too_short := by
  exact (validatePassword_strict_order defaultSettings (some "ab@c")
    (some "ab@c.de")).2 "ab@c" rfl (by decide) (by decide)

theorem casFilter_false_of_ne (u : User) {v : User} (h : v._id ≠ u._id) :
    casFilter u v = false := by
  simp [casFilter, h]

theorem first_match_decomp (db : List User) (p : User → Bool) :
    (∀ v ∈ db, p v = false) ∨
    ∃ pre w suf, db = pre ++ w :: suf ∧ (∀ v ∈ pre, p v = false) ∧
      p w = true := by
  induction db with
  | nil => left; simp
  | cons a t ih =>
    by_cases h : p a = true
    · right; exact ⟨[], a, t, rfl, by simp, h⟩
    · rcases ih with h1 | ⟨pre, w, suf, rfl, hpre, hw⟩
      · left
        intro v hv
        rcases List.mem_cons.mp hv with rfl | hv
        · exact eq_false_of_ne_true h
        · exact h1 v hv
      · right
        refine ⟨a :: pre, w, suf, rfl, ?_, hw⟩
        intro v hv
        rcases List.mem_cons.mp hv with rfl | hv
        · exact eq_false_of_ne_true h
        · exact hpre v hv

theorem setUserPasswordInV2_cases (s : Settings) (db : List User)
    (user : Option User) (password : Option String) (salt : Nat) (bOk : Bool) :
    (∃ e, setUserPasswordInV2 s db user password salt bOk =
      ⟨.error e, db, [], []⟩) ∨
    (∃ u pw, user = some u ∧ password = some pw ∧
      setUserPasswordInV2 s db user password salt bOk =
        ⟨.ok (_checkWriteResult (updateFirst db (fun v => v._id == u._id)
            (applyPasswordPatch (hashPassword s salt pw))).2),
         (updateFirst db (fun v => v._id == u._id)
            (applyPasswordPatch (hashPassword s salt pw))).1,
         [Event.uncondUpdateEv u._id], [Event.breachCheckEv]⟩) := by
  rcases user with _ | u
  · left; exact ⟨.invalidUser, rfl⟩
  · by_cases hg : u.email = "" ∨ u._id = 0
    · left; exact ⟨.invalidUser, setUserPasswordInV2_invalid_user s db u password salt bOk hg⟩
    · rcases hv : validatePassword s password (some u.email) with _ | code
      · rcases password with _ | pw
        · exact absurd hv (by simp [validatePassword])
        · right
          exact ⟨u, pw, rfl, rfl, by
            rw [setUserPasswordInV2_write s db u pw salt bOk hg hv]⟩
      · left
        exact ⟨.invalidPassword code,
          setUserPasswordInV2_invalid_password s db u password salt bOk code hg hv⟩

theorem checkRounds_cases (s : Settings) (db : List User) (user : User)
    (hp : HashedPw) (pw : String) (salt : Nat) (bOk : Bool) :
    checkRounds s db user hp pw salt bOk = ⟨.ok (), db, [], []⟩ ∨
    (∃ e, checkRounds s db user hp pw salt bOk = ⟨.error e, db, [], []⟩) ∨
    checkRounds s db user hp pw salt bOk =
      ⟨.ok (), (updateFirst db (fun v => v._id == user._id)
          (applyPasswordPatch (hashPassword s salt pw))).1,
       [Event.uncondUpdateEv user._id], [Event.breachCheckEv]⟩ := by
  by_cases hd : s.disableBcryptRoundsUpgrades
  · left; exact checkRounds_skip s db user hp pw salt bOk (Or.inl hd)
  · by_cases hlt : bcryptGetRounds hp < BCRYPT_ROUNDS s
    · rw [checkRounds_upgrade s db user hp pw salt bOk (by simpa using hd) hlt]
      rcases setUserPasswordInV2_cases s db (some user) (some pw) salt bOk with
        ⟨e, he⟩ | ⟨u2, pw2, hu2, hpw2, hw⟩
      · right; left; exact ⟨e, by simp [he, Except.map]⟩
      · right; right
        have hu : u2 = user := (Option.some.inj hu2).symm
        have hpw : pw2 = pw := (Option.some.inj hpw2).symm
        subst hu hpw
        simp [hw, Except.map]
    · left; exact checkRounds_skip s db user hp pw salt bOk (Or.inr hlt)

theorem forall2_epoch_refl (l : List User) :
    List.Forall₂ (fun a b => a.loginEpoch ≤ b.loginEpoch) l l :=
  List.forall₂_same.mpr (fun _ _ => le_refl _)

theorem setUserPasswordInV2_epochs (s : Settings) (db : List User)
    (user : Option User) (password : Option String) (salt : Nat) (bOk : Bool) :
    List.Forall₂ (fun a b => a.loginEpoch ≤ b.loginEpoch) db
      (setUserPasswordInV2 s db user password salt bOk).db := by
  rcases setUserPasswordInV2_cases s db user password salt bOk with
    ⟨e, he⟩ | ⟨u, pw, _, _, hw⟩
  · rw [he]
    exact forall2_epoch_refl db
  · rw [hw]
    exact updateFirst_epochs_le db _ _ (fun v => le_of_eq rfl)

theorem checkRounds_epochs (s : Settings) (db : List User) (user : User)
    (hp : HashedPw) (pw : String) (salt : Nat) (bOk : Bool) :
    List.Forall₂ (fun a b => a.loginEpoch ≤ b.loginEpoch) db
      (checkRounds s db user hp pw salt bOk).db := by
  rcases checkRounds_cases s db user hp pw salt bOk with h | ⟨e, h⟩ | h <;> rw [h]
  · exact forall2_epoch_refl db
  · exact forall2_epoch_refl db
  · exact updateFirst_epochs_le db _ _ (fun v => le_of_eq rfl)

theorem authenticateWith_epochs (s : Settings) (dbF dbW : List User)
    (q : User → Bool) (pw : String) (now salt : Nat) (bOk : Bool) :
    List.Forall₂ (fun a b => a.loginEpoch ≤ b.loginEpoch) dbW
      (authenticateWith s dbF dbW q pw now salt bOk).2.1 := by
  rcases hf : findOne dbF q with _ | u
  · rw [authenticateWith_not_found s dbF dbW q pw now salt bOk hf]
    exact forall2_epoch_refl dbW
  · rcases hh : u.hashedPassword with _ | hp
    · rw [authenticateWith_no_hash s dbF dbW q pw now salt bOk u hf hh]
      exact forall2_epoch_refl dbW
    · have h1 : List.Forall₂ (fun a b => a.loginEpoch ≤ b.loginEpoch) dbW
          (updateFirst dbW (casFilter u) (epochBump (bcryptCompare pw hp) now)).1 :=
        updateFirst_epochs_le _ _ _ (fun v => Nat.le_succ _)
      unfold authenticateWith
      rw [hf]
      simp only [hh]
      by_cases hn : (updateFirst dbW (casFilter u) (epochBump (bcryptCompare pw hp) now)).2 ≠ 1
      · rw [if_pos hn]
        exact h1
      · rw [if_neg hn]
        by_cases hm : bcryptCompare pw hp
        · simp only [hm, Bool.not_true, if_neg (by simp : ¬ (false = true))]
          rcases hc : (checkRounds s
              (updateFirst dbW (casFilter u) (epochBump true now)).1 u hp pw salt bOk).result with
            e | a
          · simp only [hc]
            refine forall2_epoch_le_trans (by simpa [hm] using h1) ?_
            exact checkRounds_epochs s _ u hp pw salt bOk
          · simp only [hc]
            refine forall2_epoch_le_trans (by simpa [hm] using h1) ?_
            exact checkRounds_epochs s _ u hp pw salt bOk
        · have hm' : bcryptCompare pw hp = false := by simpa using hm
          simp only [hm', Bool.not_false, if_pos rfl]
          simpa [hm'] using h1

theorem nodup_ids_sides (pre suf : List User) (w : User)
    (hnd : ((pre ++ w :: suf).map User._id).Nodup) :
    (∀ v ∈ pre, v._id ≠ w._id) ∧ (∀ v ∈ suf, v._id ≠ w._id) := by
  rw [List.map_append, List.map_cons, List.nodup_append] at hnd
  obtain ⟨h1, h2, h3⟩ := hnd
  rw [List.nodup_cons] at h2
  constructor
  · intro v hv heq
    exact h3 (List.mem_map.mpr ⟨v, hv, heq⟩) (by simp)
  · intro v hv heq
    exact h2.1 (List.mem_map.mpr ⟨v, hv, heq⟩)

theorem registerNewUser_eq (s : Settings) (db : List User) (newId : Nat)
    (claims : Claims) (pass : String) (salt : Nat) :
    registerNewUser s db newId claims.email claims.given_name
      claims.family_name pass salt =
      (db ++ [registeredUser s claims newId salt pass],
       registeredUser s claims newId salt pass) := rfl

theorem registeredUser_id (s : Settings) (claims : Claims) (newId salt : Nat)
    (pass : String) : (registeredUser s claims newId salt pass)._id = newId := rfl

theorem linkedUser_id (s : Settings) (claims : Claims) (newId salt now : Nat)
    (pass : String) : (linkedUser s claims newId salt now pass)._id = newId := rfl

theorem createIfNotExistAndLogin_create_nf (s : Settings) (db : List User)
    (user : Option User) (claims : Claims) (newId salt now : Nat)
    (pass : String) (saveOk : Bool)
    (hcreate : user = none ∨ ∃ u, user = some u ∧ u.hashedPassword = none)
    (hfresh : ∀ v ∈ db, v._id ≠ newId) :
    createIfNotExistAndLogin s db user claims newId salt now pass saveOk =
      (if saveOk then
        (.ok (linkedUser s claims newId salt now pass),
         db ++ [linkedUser s claims newId salt now pass])
       else (.err, db ++ [registeredUser s claims newId salt pass])) := by
  have hsave : saveUser (db ++ [registeredUser s claims newId salt pass])
      (linkedUser s claims newId salt now pass) =
      db ++ [linkedUser s claims newId salt now pass] := by
    unfold saveUser
    rw [show db ++ [registeredUser s claims newId salt pass] =
      db ++ registeredUser s claims newId salt pass :: [] from rfl]
    rw [updateFirst_append_cons db [] (registeredUser s claims newId salt pass) _ _
      (fun v hv => by simp [linkedUser_id, hfresh v hv])
      (by simp [registeredUser_id, linkedUser_id])]
  have hlink : ({ registeredUser s claims newId salt pass with
      admin := false, emailConfirmedAt := some now,
      thirdPartyIdentifiers :=
        (registeredUser s claims newId salt pass).thirdPartyIdentifiers ++
          [claims.sub] } : User) = linkedUser s claims newId salt now pass := rfl
  rcases hcreate with rfl | ⟨u, rfl, hhp⟩
  · unfold createIfNotExistAndLogin
    simp only [registerNewUser_eq, hlink]
    cases saveOk
    · simp
    · simp [hsave]
  · unfold createIfNotExistAndLogin
    simp only [hhp, registerNewUser_eq, hlink]
    cases saveOk
    · simp
    · simp [hsave]

theorem createIfNotExistAndLogin_update_nf (s : Settings) (pre suf : List User)
    (u : User) (claims : Claims) (newId salt now : Nat) (pass : String)
    (saveOk : Bool)
    (hhp : u.hashedPassword ≠ none)
    (hpreid : ∀ v ∈ pre, v._id ≠ u._id) :
    createIfNotExistAndLogin s (pre ++ u :: suf) (some u) claims newId salt now
      pass saveOk =
      (if saveOk then
        (.ok (profileUpdate claims u), pre ++ profileUpdate claims u :: suf)
       else (.err, pre ++ u :: suf)) := by
  have hsave : saveUser (pre ++ u :: suf) (profileUpdate claims u) =
      pre ++ profileUpdate claims u :: suf := by
    unfold saveUser
    rw [updateFirst_append_cons pre suf u _ _
      (fun v hv => by simp [profileUpdate, hpreid v hv]) (by simp [profileUpdate])]
  unfold createIfNotExistAndLogin
  have hnc : decide (u.hashedPassword = none) = false := by
    simp [hhp]
  simp only [hnc, Bool.false_eq_true, if_false, hsave]

theorem doPassportLogin_epochs (s : Settings) (db : List User) (claims : Claims)
    (newId salt now : Nat) (pass : String) (saveOk : Bool)
    (hfresh : ∀ v ∈ db, v._id ≠ newId) (hnd : (db.map User._id).Nodup) :
    epochsNondecreasing db
      (doPassportLogin s db claims newId salt now pass saveOk).2 := by
  simp only [doPassportLogin]
  rcases hf : findOne db (fun u => u.thirdPartyIdentifiers.contains claims.sub)
    with _ | u
  · rw [createIfNotExistAndLogin_create_nf s db none claims newId salt now pass
      saveOk (Or.inl rfl) hfresh]
    cases saveOk
    · exact ⟨db, [registeredUser s claims newId salt pass], by simp,
        forall2_epoch_refl db⟩
    · exact ⟨db, [linkedUser s claims newId salt now pass], by simp,
        forall2_epoch_refl db⟩
  · by_cases hhp : u.hashedPassword = none
    · rw [createIfNotExistAndLogin_create_nf s db (some u) claims newId salt now
        pass saveOk (Or.inr ⟨u, rfl, hhp⟩) hfresh]
      cases saveOk
      · exact ⟨db, [registeredUser s claims newId salt pass], by simp,
          forall2_epoch_refl db⟩
      · exact ⟨db, [linkedUser s claims newId salt now pass], by simp,
          forall2_epoch_refl db⟩
    · have hmem : u ∈ db := List.mem_of_find?_eq_some hf
      obtain ⟨pre, suf, hdb, hpreid, hsufid⟩ := nodup_ids_decomp db u hmem hnd
      subst hdb
      rw [createIfNotExistAndLogin_update_nf s pre suf u claims newId salt now
        pass saveOk hhp hpreid]
      cases saveOk
      · exact ⟨pre ++ u :: suf, [], by simp, forall2_epoch_refl _⟩
      · refine ⟨pre ++ profileUpdate claims u :: suf, [], by simp, ?_⟩
        exact List.rel_append (forall2_epoch_refl pre)
          (List.Forall₂.cons (le_of_eq rfl) (forall2_epoch_refl suf))

/-- C3: for an identifier matching no account, and for an account whose
`hashedPassword` is absent, `authenticate` returns the generic failure
`callback(null, null)` regardless of the supplied password, the store is
unchanged, and no write is attempted (the trace holds only the callback);
and a wrong-password attempt yields the very same generic `.failure`
result, so the outcomes are indistinguishable to the caller. -/
theorem authenticate_no_enumeration (s : Settings) (db : List User)
    (q : User → Bool) (pw : String) (now salt : Nat) (bOk : Bool) :
    (findOne db q = none →
      authenticate s db q pw now salt bOk = (.failure, db, [Event.callbackEv])) ∧
    (∀ u, findOne db q = some u → u.hashedPassword = none →
      authenticate s db q pw now salt bOk = (.failure, db, [Event.callbackEv])) ∧
    (∀ u hp, (db.map User._id).Nodup → findOne db q = some u →
      u.hashedPassword = some hp → bcryptCompare pw hp = false →
      (authenticate s db q pw now salt bOk).1 = .failure) := by
  refine ⟨?_, ?_, ?_⟩
  · intro h
    exact authenticateWith_not_found s db db q pw now salt bOk h
  · intro u hfind hhp
    exact authenticateWith_no_hash s db db q pw now salt bOk u hfind hhp
  · intro u hp hnd hfind hhp hm
    have hmem : u ∈ db := List.mem_of_find?_eq_some hfind
    obtain ⟨pre, suf, hdb, hpreid, hsufid⟩ := nodup_ids_decomp db u hmem hnd
    subst hdb
    have hpre' : ∀ v ∈ pre, casFilter u v = false :=
      fun v hv => casFilter_false_of_ne u (hpreid v hv)
    unfold authenticate
    rw [authenticateWith_cas_hit_mismatch s (pre ++ u :: suf) pre suf u u hp q pw
      now salt bOk hfind hhp hm hpre' (casFilter_self u)]

/-- Witness for C3: an unknown identifier and a passwordless account both
yield the untouched store and the bare generic failure. -/
theorem authenticate_no_enumeration_witness :
    authenticate defaultSettings [uA, uC] (fun v => v.email == "no@x.io")
      "anything" 100 3 true = (.failure, [uA, uC], [Event.callbackEv]) ∧
    authenticate defaultSettings [uA, uC] (fun v => v.email == "c3@x.io")
      "anything" 100 3 true = (.failure, [uA, uC], [Event.callbackEv]) := by
  constructor
  · exact (authenticate_no_enumeration defaultSettings [uA, uC]
      (fun v => v.email == "no@x.io") "anything" 100 3 true).1 (by decide)
  · exact (authenticate_no_enumeration defaultSettings [uA, uC]
      (fun v => v.email == "c3@x.io") "anything" 100 3 true).2.1 uC
      (by decide) (by decide)

/-- C2: every authenticate call that reaches the write step (account found
with a `hashedPassword`, verification computed) issues exactly one
conditioned update — the epoch-guarded increment keyed by the fetched id
and epoch — including when the password does not match; when the password
does not match, that same update also sets `lastFailedLogin` to now while
advancing `loginEpoch` by 1 and leaving `hashedPassword` untouched, before
the generic failure is returned; and no operation of this module ever
decreases a stored `loginEpoch` (authenticate under any write-time store,
password setting, passport login). -/
theorem authenticate_exactly_one_conditioned_increment (s : Settings)
    (db : List User) (q : User → Bool) (pw : String) (now salt : Nat)
    (bOk : Bool) :
    (∀ u hp, findOne db q = some u → u.hashedPassword = some hp →
      (authenticate s db q pw now salt bOk).2.2.filter isCondUpdate =
        [Event.condUpdateEv u._id u.loginEpoch
          (if bcryptCompare pw hp then none else some now)]) ∧
    (∀ u hp, (db.map User._id).Nodup → findOne db q = some u →
      u.hashedPassword = some hp → bcryptCompare pw hp = false →
      (authenticate s db q pw now salt bOk).1 = .failure ∧
      (authenticate s db q pw now salt bOk).2.1.find?
          (fun v => v._id == u._id) = some (epochBump false now u) ∧
      (epochBump false now u).loginEpoch = u.loginEpoch + 1 ∧
      (epochBump false now u).lastFailedLogin = some now ∧
      (epochBump false now u).hashedPassword = u.hashedPassword) ∧
    (∀ dbW, List.Forall₂ (fun a b => a.loginEpoch ≤ b.loginEpoch) dbW
      (authenticateWith s db dbW q pw now salt bOk).2.1) ∧
    (∀ user password salt2 bOk2,
      List.Forall₂ (fun a b => a.loginEpoch ≤ b.loginEpoch) db
        (setUserPasswordInV2 s db user password salt2 bOk2).db) ∧
    (∀ claims newId salt2 now2 pass saveOk, (∀ v ∈ db, v._id ≠ newId) →
      (db.map User._id).Nodup →
      epochsNondecreasing db
        (doPassportLogin s db claims newId salt2 now2 pass saveOk).2) := by
  refine ⟨?_, ?_, ?_, ?_, ?_⟩
  · intro u hp hfind hhp
    unfold authenticate
    rcases first_match_decomp db (casFilter u) with hno | ⟨pre, w, suf, hdb, hpre, hw⟩
    · rw [authenticateWith_cas_zero s db db q pw now salt bOk u hp hfind hhp hno]
      simp [isCondUpdate]
    · subst hdb
      by_cases hm : bcryptCompare pw hp
      · rw [authenticateWith_cas_hit_match s (pre ++ w :: suf) pre suf w u hp q pw
          now salt bOk hfind hhp hm hpre hw]
        rcases checkRounds_cases s (pre ++ epochBump true now w :: suf) u hp pw
          salt bOk with hc | ⟨e, hc⟩ | hc <;>
          simp [hc, isCondUpdate, hm]
      · have hm' : bcryptCompare pw hp = false := by simpa using hm
        rw [authenticateWith_cas_hit_mismatch s (pre ++ w :: suf) pre suf w u hp
          q pw now salt bOk hfind hhp hm' hpre hw]
        simp [isCondUpdate, hm']
  · intro u hp hnd hfind hhp hm
    have hmem : u ∈ db := List.mem_of_find?_eq_some hfind
    obtain ⟨pre, suf, hdb, hpreid, hsufid⟩ := nodup_ids_decomp db u hmem hnd
    subst hdb
    have hpre' : ∀ v ∈ pre, casFilter u v = false :=
      fun v hv => casFilter_false_of_ne u (hpreid v hv)
    unfold authenticate
    rw [authenticateWith_cas_hit_mismatch s (pre ++ u :: suf) pre suf u u hp q pw
      now salt bOk hfind hhp hm hpre' (casFilter_self u)]
    refine ⟨rfl, ?_, rfl, rfl, rfl⟩
    exact find?_append_cons pre suf (epochBump false now u) _
      (fun v hv => by simp [hpreid v hv]) (by simp [epochBump_id])
  · intro dbW
    exact authenticateWith_epochs s db dbW q pw now salt bOk
  · intro user password salt2 bOk2
    exact setUserPasswordInV2_epochs s db user password salt2 bOk2
  · intro claims newId salt2 now2 pass saveOk hfresh hnd
    exact doPassportLogin_epochs s db claims newId salt2 now2 pass saveOk hfresh hnd

/-- Witness for C2: a wrong-password attempt against `uA` performs exactly
one conditioned update (id 1, expected epoch 5, setting the failure time),
returns the generic failure, and the stored account has epoch 6 and
`lastFailedLogin = 100`. -/
theorem authenticate_exactly_one_conditioned_increment_witness :
    (authenticate defaultSettings [uA] (fun v => v.email == "u@x.io") "wrongpw"
        100 3 true).2.2.filter isCondUpdate =
      [Event.condUpdateEv 1 5 (some 100)] ∧
    (authenticate defaultSettings [uA] (fun v => v.email == "u@x.io") "wrongpw"
        100 3 true).1 = .failure := by
  have h := authenticate_exactly_one_conditioned_increment defaultSettings [uA]
    (fun v => v.email == "u@x.io") "wrongpw" 100 3 true
  constructor
  · have h1 := h.1 uA { cost := 12, minor := "a", salt := 7, pw := "Secret99" }
      (by decide) (by decide)
    rw [h1]
    decide
  · exact (h.2.1 uA { cost := 12, minor := "a", salt := 7, pw := "Secret99" }
      (by decide) (by decide) (by decide) (by decide)).1

/-- C1: when the conditioned write observes a write-time store in which the
account's `loginEpoch` differs from the value read at fetch time (so no
document matches the `{_id, loginEpoch}` filter and zero records are
affected), `authenticate` returns `ParallelLoginError` — a result distinct
from the generic failure — and leaves the write-time store entirely
unchanged (in particular that account's `loginEpoch`, `lastFailedLogin` and
`hashedPassword`); when the epoch still matches, that single call's
conditioned write lands and the stored account's `loginEpoch` advances from
N to N+1, the call's trace containing exactly one conditioned update. -/
theorem authenticate_parallel_login_epoch (s : Settings) (dbF dbW : List User)
    (q : User → Bool) (pw : String) (now salt : Nat) (bOk : Bool)
    (u : User) (hp : HashedPw)
    (hfind : findOne dbF q = some u) (hhp : u.hashedPassword = some hp) :
    ((∀ v ∈ dbW, v._id = u._id → v.loginEpoch ≠ u.loginEpoch) →
      (authenticateWith s dbF dbW q pw now salt bOk).1 = .err .parallelLogin ∧
      (authenticateWith s dbF dbW q pw now salt bOk).2.1 = dbW ∧
      AuthResult.err .parallelLogin ≠ AuthResult.failure) ∧
    ((dbW.map User._id).Nodup → ∀ w ∈ dbW, w._id = u._id →
      w.loginEpoch = u.loginEpoch →
      ∃ w', (authenticateWith s dbF dbW q pw now salt bOk).2.1.find?
          (fun v => v._id == u._id) = some w' ∧
        w'.loginEpoch = u.loginEpoch + 1 ∧
        ((authenticateWith s dbF dbW q pw now salt bOk).2.2.filter
          isCondUpdate).length = 1) := by
  constructor
  · intro hno
    have hno' : ∀ v ∈ dbW, casFilter u v = false := by
      intro v hv
      by_cases hid : v._id = u._id
      · simp [casFilter, hid, hno v hv hid]
      · exact casFilter_false_of_ne u hid
    rw [authenticateWith_cas_zero s dbF dbW q pw now salt bOk u hp hfind hhp hno']
    exact ⟨rfl, rfl, by simp⟩
  · intro hnd w hmem hwid hwep
    obtain ⟨pre, suf, hdb, hpreid, hsufid⟩ := nodup_ids_decomp dbW w hmem hnd
    subst hdb
    have hpre' : ∀ v ∈ pre, casFilter u v = false :=
      fun v hv => casFilter_false_of_ne u (fun h => hpreid v hv (h.trans hwid.symm))
    have hw : casFilter u w = true := (casFilter_eq_true_iff u w).mpr ⟨hwid, hwep⟩
    have hfound : ∀ x : User, x._id = w._id →
        ∀ t : List User, (pre ++ x :: t).find? (fun v => v._id == u._id) = some x :=
      fun x hx t => find?_append_cons pre t x _
        (fun v hv => by
          have hne : v._id ≠ u._id := fun h => hpreid v hv (h.trans hwid.symm)
          simp [hne])
        (by simp [hx, hwid])
    by_cases hm : bcryptCompare pw hp
    · rw [authenticateWith_cas_hit_match s dbF pre suf w u hp q pw now salt bOk
        hfind hhp hm hpre' hw]
      rcases checkRounds_cases s (pre ++ epochBump true now w :: suf) u hp pw
        salt bOk with hc | ⟨e, hc⟩ | hc
      · refine ⟨epochBump true now w, ?_, ?_, ?_⟩
        · simp only [hc]
          exact hfound (epochBump true now w) (epochBump_id true now w) suf
        · rw [epochBump_epoch, hwep]
        · simp [hc, isCondUpdate]
      · refine ⟨epochBump true now w, ?_, ?_, ?_⟩
        · simp only [hc]
          exact hfound (epochBump true now w) (epochBump_id true now w) suf
        · rw [epochBump_epoch, hwep]
        · simp [hc, isCondUpdate]
      · have hup : updateFirst (pre ++ epochBump true now w :: suf)
            (fun v => v._id == u._id)
            (applyPasswordPatch (hashPassword s salt pw)) =
            (pre ++ applyPasswordPatch (hashPassword s salt pw)
              (epochBump true now w) :: suf,
             if applyPasswordPatch (hashPassword s salt pw)
               (epochBump true now w) = epochBump true now w then 0 else 1) :=
          updateFirst_append_cons pre suf (epochBump true now w) _ _
            (fun v hv => by
              have hne : v._id ≠ u._id := fun h => hpreid v hv (h.trans hwid.symm)
              simp [hne])
            (by simp [epochBump_id, hwid])
        refine ⟨applyPasswordPatch (hashPassword s salt pw) (epochBump true now w),
          ?_, ?_, ?_⟩
        · simp only [hc, hup]
          exact hfound _ (by rw [applyPasswordPatch_id, epochBump_id]) suf
        · rw [applyPasswordPatch_epoch, epochBump_epoch, hwep]
        · simp [hc, isCondUpdate]
    · have hm' : bcryptCompare pw hp = false := by simpa using hm
      rw [authenticateWith_cas_hit_mismatch s dbF pre suf w u hp q pw now salt
        bOk hfind hhp hm' hpre' hw]
      refine ⟨epochBump false now w, ?_, ?_, ?_⟩
      · exact hfound (epochBump false now w) (epochBump_id false now w) suf
      · rw [epochBump_epoch, hwep]
      · simp [isCondUpdate]

/-- Witness for C1: the second of two racing logins — its fetch read epoch 5
but the store has already advanced to 6 — fails with `ParallelLoginError`
and leaves the store unchanged, while a first (uncontended) call advances
the epoch from 5 to 6. -/
theorem authenticate_parallel_login_epoch_witness :
    ((authenticateWith defaultSettings [uA] [{ uA with loginEpoch := 6 }]
        (fun v => v.email == "u@x.io") "Secret99" 100 3 true).1 =
      .err .parallelLogin ∧
     (authenticateWith defaultSettings [uA] [{ uA with loginEpoch := 6 }]
        (fun v => v.email == "u@x.io") "Secret99" 100 3 true).2.1 =
      [{ uA with loginEpoch := 6 }]) ∧
    (∃ w', (authenticateWith defaultSettings [uA] [uA]
        (fun v => v.email == "u@x.io") "Secret99" 100 3 true).2.1.find?
          (fun v => v._id == uA._id) = some w' ∧
      w'.loginEpoch = uA.loginEpoch + 1) := by
  constructor
  · have h := (authenticate_parallel_login_epoch defaultSettings [uA]
      [{ uA with loginEpoch := 6 }] (fun v => v.email == "u@x.io") "Secret99"
      100 3 true uA { cost := 12, minor := "a", salt := 7, pw := "Secret99" }
      (by decide) (by decide)).1 (by decide)
    exact ⟨h.1, h.2.1⟩
  · obtain ⟨w', hw1, hep, -⟩ := (authenticate_parallel_login_epoch defaultSettings
      [uA] [uA] (fun v => v.email == "u@x.io") "Secret99" 100 3 true uA
      { cost := 12, minor := "a", salt := 7, pw := "Secret99" }
      (by decide) (by decide)).2 (by decide) uA (by decide) rfl rfl
    exact ⟨w', hw1, hep⟩

/-- C10: for an account found by id and a password passing policy
validation, a password-set issues exactly one (unconditioned) update which
simultaneously sets the new `hashedPassword` and removes the legacy
plaintext `password` field, leaving every other field of the account — and
every other document — unchanged; the breach check fires only after the
callback. -/
theorem setUserPassword_single_update_frame (s : Settings) (pre suf : List User)
    (u : User) (pw : String) (salt : Nat) (bOk : Bool)
    (hpreid : ∀ v ∈ pre, v._id ≠ u._id)
    (hemail : u.email ≠ "") (hid : u._id ≠ 0)
    (hval : validatePassword s (some pw) (some u.email) = none) :
    (∃ b, (setUserPasswordInV2 s (pre ++ u :: suf) (some u) (some pw) salt
      bOk).result = .ok b) ∧
    (setUserPasswordInV2 s (pre ++ u :: suf) (some u) (some pw) salt bOk).db =
      pre ++ applyPasswordPatch (hashPassword s salt pw) u :: suf ∧
    applyPasswordPatch (hashPassword s salt pw) u =
      { u with
        hashedPassword := some (hashPassword s salt pw), password := none } ∧
    (setUserPasswordInV2 s (pre ++ u :: suf) (some u) (some pw) salt bOk).pre =
      [Event.uncondUpdateEv u._id] ∧
    (setUserPasswordInV2 s (pre ++ u :: suf) (some u) (some pw) salt bOk).post =
      [Event.breachCheckEv] := by
  have hg : ¬ (u.email = "" ∨ u._id = 0) := not_or.mpr ⟨hemail, hid⟩
  rw [setUserPasswordInV2_write s (pre ++ u :: suf) u pw salt bOk hg hval]
  rw [updateFirst_append_cons pre suf u _ _
    (fun v hv => by simp [hpreid v hv]) (by simp)]
  exact ⟨⟨_, rfl⟩, rfl, rfl, rfl, rfl⟩

/-- Witness for C10: setting `uA`'s password to `NewSecret7` rewrites
exactly the hash (and clears the legacy field), at the configured cost. -/
theorem setUserPassword_single_update_frame_witness :
    (setUserPasswordInV2 defaultSettings [uA] (some uA) (some "NewSecret7") 3
      true).db =
      [applyPasswordPatch
        { cost := 12, minor := "a", salt := 3, pw := "NewSecret7" } uA] := by
  have h := setUserPassword_single_update_frame defaultSettings [] [] uA
    "NewSecret7" 3 true (by simp) (by decide) (by decide) (by decide)
  simpa using h.2.1

theorem setUserPasswordInV2_breach_oblivious (s : Settings) (db : List User)
    (user : Option User) (password : Option String) (salt : Nat)
    (b1 b2 : Bool) :
    setUserPasswordInV2 s db user password salt b1 =
      setUserPasswordInV2 s db user password salt b2 := rfl

theorem authenticateWith_breach_oblivious (s : Settings) (dbF dbW : List User)
    (q : User → Bool) (pw : String) (now salt : Nat) (b1 b2 : Bool) :
    authenticateWith s dbF dbW q pw now salt b1 =
      authenticateWith s dbF dbW q pw now salt b2 := rfl

theorem setUserPasswordInV2_trace_shape (s : Settings) (db : List User)
    (user : Option User) (password : Option String) (salt : Nat) (bOk : Bool) :
    (∃ a b, opEvents (setUserPasswordInV2 s db user password salt bOk) =
      a ++ Event.callbackEv :: b ∧
      ∀ e ∈ a, e ≠ Event.breachCheckEv ∧ e ≠ Event.callbackEv) ∧
    (∀ r, (setUserPasswordInV2 s db user password salt bOk).result = .ok r →
      Event.breachCheckEv ∈
        opEvents (setUserPasswordInV2 s db user password salt bOk)) := by
  rcases setUserPasswordInV2_cases s db user password salt bOk with
    ⟨e, he⟩ | ⟨u, pw, _, _, hw⟩
  · constructor
    · exact ⟨[], [], by simp [he, opEvents], by simp⟩
    · intro r hr
      rw [he] at hr
      exact nomatch hr
  · constructor
    · refine ⟨[Event.uncondUpdateEv u._id], [Event.breachCheckEv],
        by simp [hw, opEvents], ?_⟩
      intro e he'
      rcases List.mem_singleton.mp he' with rfl
      exact ⟨by simp, by simp⟩
    · intro r hr
      simp [hw, opEvents]

theorem authenticateWith_trace_shape (s : Settings) (dbF dbW : List User)
    (q : User → Bool) (pw : String) (now salt : Nat) (bOk : Bool) :
    (∃ a b, (authenticateWith s dbF dbW q pw now salt bOk).2.2 =
      a ++ Event.callbackEv :: b ∧
      ∀ e ∈ a, e ≠ Event.breachCheckEv ∧ e ≠ Event.callbackEv) ∧
    (∀ u, (authenticateWith s dbF dbW q pw now salt bOk).1 = .success u →
      Event.breachCheckEv ∈ (authenticateWith s dbF dbW q pw now salt bOk).2.2) := by
  rcases hf : findOne dbF q with _ | u
  · rw [authenticateWith_not_found s dbF dbW q pw now salt bOk hf]
    exact ⟨⟨[], [], rfl, by simp⟩, fun u h => nomatch h⟩
  · rcases hh : u.hashedPassword with _ | hp
    · rw [authenticateWith_no_hash s dbF dbW q pw now salt bOk u hf hh]
      exact ⟨⟨[], [], rfl, by simp⟩, fun u h => nomatch h⟩
    · rcases first_match_decomp dbW (casFilter u) with hno | ⟨pre, w, suf, hdb, hpre, hw⟩
      · rw [authenticateWith_cas_zero s dbF dbW q pw now salt bOk u hp hf hh hno]
        refine ⟨⟨[Event.condUpdateEv u._id u.loginEpoch
          (if bcryptCompare pw hp then none else some now)], [], rfl, ?_⟩,
          fun u h => nomatch h⟩
        intro e he'
        rcases List.mem_singleton.mp he' with rfl
        exact ⟨by simp, by simp⟩
      · subst hdb
        by_cases hm : bcryptCompare pw hp
        · rw [authenticateWith_cas_hit_match s dbF pre suf w u hp q pw now salt
            bOk hf hh hm hpre hw]
          rcases checkRounds_cases s (pre ++ epochBump true now w :: suf) u hp
            pw salt bOk with hc | ⟨e, hc⟩ | hc
          · constructor
            · refine ⟨[Event.condUpdateEv u._id u.loginEpoch none],
                [Event.breachCheckEv], by simp [hc], ?_⟩
              intro e he'
              rcases List.mem_singleton.mp he' with rfl
              exact ⟨by simp, by simp⟩
            · intro u0 h0
              simp [hc]
          · constructor
            · refine ⟨[Event.condUpdateEv u._id u.loginEpoch none], [],
                by simp [hc], ?_⟩
              intro e he'
              rcases List.mem_singleton.mp he' with rfl
              exact ⟨by simp, by simp⟩
            · intro u0 h0
              rw [hc] at h0
              exact nomatch h0
          · constructor
            · refine ⟨[Event.condUpdateEv u._id u.loginEpoch none,
                Event.uncondUpdateEv u._id],
                [Event.breachCheckEv, Event.breachCheckEv], by simp [hc], ?_⟩
              intro e he'
              rcases List.mem_cons.mp he' with rfl | he''
              · exact ⟨by simp, by simp⟩
              · rcases List.mem_singleton.mp he'' with rfl
                exact ⟨by simp, by simp⟩
            · intro u0 h0
              simp [hc]
        · have hm' : bcryptCompare pw hp = false := by simpa using hm
          rw [authenticateWith_cas_hit_mismatch s dbF pre suf w u hp q pw now
            salt bOk hf hh hm' hpre hw]
          refine ⟨⟨[Event.condUpdateEv u._id u.loginEpoch (some now)], [],
            rfl, ?_⟩, fun u h => nomatch h⟩
          intro e he'
          rcases List.mem_singleton.mp he' with rfl
          exact ⟨by simp, by simp⟩

/-- C9 counterexample: a password-set operation that fails policy validation
("abc" is too short) never invokes the breach check, refuting "it is
invoked after ... every password-set operation": the call returns the
validation error and its trace has no breach-check event. -/
theorem breach_check_skipped_cex :
    (setUserPasswordInV2 defaultSettings [uA] (some uA) (some "abc") 3
        true).result = .error (.invalidPassword .too_short) ∧
    Event.breachCheckEv ∉ opEvents
      (setUserPasswordInV2 defaultSettings [uA] (some uA) (some "abc") 3 true) := by
  decide

/-- C9 (amended): the breach check is scheduled only after the primary
result has been delivered (every breach event in a trace follows the
callback event), it never gates or alters the primary result or the stored
state (both are identical whether the background check succeeds, fails, or
is treated as never run), it is invoked after every successful
authentication, and after every password-set operation that passes the
user-object check and password validation and reaches the store write
(even when zero records were modified); password-set operations that fail
earlier do not invoke it. -/
theorem breach_check_after_result (s : Settings) (dbF dbW db2 : List User)
    (q : User → Bool) (pw : String) (now salt : Nat)
    (user : Option User) (password : Option String) (salt2 : Nat) :
    (∀ bOk, ∃ a b, (authenticateWith s dbF dbW q pw now salt bOk).2.2 =
      a ++ Event.callbackEv :: b ∧
      ∀ e ∈ a, e ≠ Event.breachCheckEv ∧ e ≠ Event.callbackEv) ∧
    (∀ b1 b2, (authenticateWith s dbF dbW q pw now salt b1).1 =
        (authenticateWith s dbF dbW q pw now salt b2).1 ∧
      (authenticateWith s dbF dbW q pw now salt b1).2.1 =
        (authenticateWith s dbF dbW q pw now salt b2).2.1) ∧
    (∀ bOk u, (authenticateWith s dbF dbW q pw now salt bOk).1 = .success u →
      Event.breachCheckEv ∈ (authenticateWith s dbF dbW q pw now salt bOk).2.2) ∧
    (∀ bOk, ∃ a b, opEvents (setUserPasswordInV2 s db2 user password salt2 bOk) =
      a ++ Event.callbackEv :: b ∧
      ∀ e ∈ a, e ≠ Event.breachCheckEv ∧ e ≠ Event.callbackEv) ∧
    (∀ b1 b2, (setUserPasswordInV2 s db2 user password salt2 b1).result =
        (setUserPasswordInV2 s db2 user password salt2 b2).result ∧
      (setUserPasswordInV2 s db2 user password salt2 b1).db =
        (setUserPasswordInV2 s db2 user password salt2 b2).db) ∧
    (∀ bOk r, (setUserPasswordInV2 s db2 user password salt2 bOk).result = .ok r →
      Event.breachCheckEv ∈
        opEvents (setUserPasswordInV2 s db2 user password salt2 bOk)) := by
  refine ⟨?_, ?_, ?_, ?_, ?_, ?_⟩
  · intro bOk
    exact (authenticateWith_trace_shape s dbF dbW q pw now salt bOk).1
  · intro b1 b2
    rw [authenticateWith_breach_oblivious s dbF dbW q pw now salt b1 b2]
    exact ⟨rfl, rfl⟩
  · intro bOk u h
    exact (authenticateWith_trace_shape s dbF dbW q pw now salt bOk).2 u h
  · intro bOk
    exact (setUserPasswordInV2_trace_shape s db2 user password salt2 bOk).1
  · intro b1 b2
    rw [setUserPasswordInV2_breach_oblivious s db2 user password salt2 b1 b2]
    exact ⟨rfl, rfl⟩
  · intro bOk r h
    exact (setUserPasswordInV2_trace_shape s db2 user password salt2 bOk).2 r h

/-- Witness for C9 (amended): a successful authentication and a successful
password-set both fire the breach check. -/
theorem breach_check_after_result_witness :
    Event.breachCheckEv ∈ (authenticateWith defaultSettings [uA] [uA]
      (fun v => v.email == "u@x.io") "Secret99" 100 3 true).2.2 ∧
    Event.breachCheckEv ∈ opEvents (setUserPasswordInV2 defaultSettings [uA]
      (some uA) (some "NewSecret7") 3 true) := by
  have h := breach_check_after_result defaultSettings [uA] [uA] [uA]
    (fun v => v.email == "u@x.io") "Secret99" 100 3 (some uA)
    (some "NewSecret7") 3
  constructor
  · exact h.2.2.1 true uA (by decide)
  · exact h.2.2.2.2.2 true true (by decide)

/-- C6: when hash upgrades are not administratively disabled and the stored
hash's cost is below the configured target, every successful authenticate
with the correct password leaves the store holding a replacement hash for
that account whose cost equals the target cost, and the same plaintext
still verifies against the newly persisted hash. -/
theorem authenticate_hash_migration (s : Settings) (db : List User)
    (q : User → Bool) (pw : String) (now salt : Nat) (bOk : Bool)
    (u : User) (hp : HashedPw)
    (hnd : (db.map User._id).Nodup)
    (hfind : findOne db q = some u) (hhp : u.hashedPassword = some hp)
    (hdis : s.disableBcryptRoundsUpgrades = false)
    (hlt : bcryptGetRounds hp < BCRYPT_ROUNDS s)
    (hok : ∃ u0, (authenticate s db q pw now salt bOk).1 = .success u0) :
    ∃ u', (authenticate s db q pw now salt bOk).2.1.find?
        (fun v => v._id == u._id) = some u' ∧
      u'.hashedPassword = some (hashPassword s salt pw) ∧
      bcryptGetRounds (hashPassword s salt pw) = BCRYPT_ROUNDS s ∧
      bcryptCompare pw (hashPassword s salt pw) = true := by
  have hmem : u ∈ db := List.mem_of_find?_eq_some hfind
  obtain ⟨pre, suf, hdb, hpreid, hsufid⟩ := nodup_ids_decomp db u hmem hnd
  subst hdb
  have hpre' : ∀ v ∈ pre, casFilter u v = false :=
    fun v hv => casFilter_false_of_ne u (hpreid v hv)
  unfold authenticate at *
  by_cases hm : bcryptCompare pw hp
  · rw [authenticateWith_cas_hit_match s (pre ++ u :: suf) pre suf u u hp q pw
      now salt bOk hfind hhp hm hpre' (casFilter_self u)] at *
    rw [checkRounds_upgrade s (pre ++ epochBump true now u :: suf) u hp pw salt
      bOk hdis hlt] at *
    rcases setUserPasswordInV2_cases s (pre ++ epochBump true now u :: suf)
      (some u) (some pw) salt bOk with ⟨e, he⟩ | ⟨u2, pw2, hu2, hpw2, hw⟩
    · obtain ⟨u0, habs⟩ := hok
      rw [he] at habs
      simp [Except.map] at habs
    · have hu : u2 = u := (Option.some.inj hu2).symm
      have hpw : pw2 = pw := (Option.some.inj hpw2).symm
      rw [hu, hpw] at hw
      have hup := updateFirst_append_cons pre suf (epochBump true now u)
        (fun v => v._id == u._id) (applyPasswordPatch (hashPassword s salt pw))
        (fun v hv => by simp [hpreid v hv]) (by simp [epochBump_id])
      refine ⟨applyPasswordPatch (hashPassword s salt pw) (epochBump true now u),
        ?_, rfl, rfl, by simp [bcryptCompare, hashPassword, bcryptHash]⟩
      simp only [hw, Except.map, hup]
      exact find?_append_cons pre suf _ _
        (fun v hv => by simp [hpreid v hv])
        (by simp [applyPasswordPatch_id, epochBump_id])
  · have hm' : bcryptCompare pw hp = false := by simpa using hm
    rw [authenticateWith_cas_hit_mismatch s (pre ++ u :: suf) pre suf u u hp q
      pw now salt bOk hfind hhp hm' hpre' (casFilter_self u)] at hok
    obtain ⟨u0, habs⟩ := hok
    exact AuthResult.noConfusion habs

/-- Witness for C6: `uB` holds a cost-4 hash; a successful login with the
correct password persists a cost-12 hash that still verifies. -/
theorem authenticate_hash_migration_witness :
    ∃ u', (authenticate defaultSettings [uB] (fun v => v.email == "u@x.io")
        "Secret99" 100 3 true).2.1.find? (fun v => v._id == uB._id) =
        some u' ∧
      u'.hashedPassword = some (hashPassword defaultSettings 3 "Secret99") ∧
      bcryptGetRounds (hashPassword defaultSettings 3 "Secret99") =
        BCRYPT_ROUNDS defaultSettings ∧
      bcryptCompare "Secret99" (hashPassword defaultSettings 3 "Secret99") =
        true := by
  exact authenticate_hash_migration defaultSettings [uB]
    (fun v => v.email == "u@x.io") "Secret99" 100 3 true uB
    { cost := 4, minor := "a", salt := 7, pw := "Secret99" }
    (by decide) (by decide) (by decide) (by decide) (by decide)
    ⟨uB, by decide⟩

/-- C7: linking is idempotent with the subject identifier as the
deduplication key: starting from a store with no account linked to
`claims.sub` (and a fresh id), the first call persists exactly one new
account carrying the identifier; a second call with identical claims — for
any id/salt/placeholder the registration path might have used — finds that
account by the subject identifier, overwrites only the mutable profile
fields (a no-op for identical claims), and returns with the store
unchanged: still exactly one account holding the identifier, one account
added in total. -/
theorem doPassportLogin_idempotent (s : Settings) (db : List User)
    (claims : Claims) (newId salt now : Nat) (pass : String)
    (hnosub : ∀ v ∈ db, v.thirdPartyIdentifiers.contains claims.sub = false)
    (hfresh : ∀ v ∈ db, v._id ≠ newId) :
    (doPassportLogin s db claims newId salt now pass true).2 =
      db ++ [linkedUser s claims newId salt now pass] ∧
    (∀ newId2 salt2 now2 pass2,
      doPassportLogin s (db ++ [linkedUser s claims newId salt now pass])
        claims newId2 salt2 now2 pass2 true =
      (.ok (linkedUser s claims newId salt now pass),
       db ++ [linkedUser s claims newId salt now pass])) ∧
    ((db ++ [linkedUser s claims newId salt now pass]).filter
      (fun v => v.thirdPartyIdentifiers.contains claims.sub)).length = 1 ∧
    (db ++ [linkedUser s claims newId salt now pass]).length =
      db.length + 1 := by
  have hfind1 : findOne db
      (fun v => v.thirdPartyIdentifiers.contains claims.sub) = none := by
    unfold findOne
    rw [List.find?_eq_none]
    intro x hx
    simpa using hnosub x hx
  have hlc : (linkedUser s claims newId salt now pass).thirdPartyIdentifiers.contains
      claims.sub = true := by
    simp [linkedUser]
  have hprof : profileUpdate claims (linkedUser s claims newId salt now pass) =
      linkedUser s claims newId salt now pass := rfl
  refine ⟨?_, ?_, ?_, by simp⟩
  · simp only [doPassportLogin]
    rw [hfind1, createIfNotExistAndLogin_create_nf s db none claims newId salt
      now pass true (Or.inl rfl) hfresh]
    simp
  · intro newId2 salt2 now2 pass2
    have hfind2 : findOne (db ++ [linkedUser s claims newId salt now pass])
        (fun v => v.thirdPartyIdentifiers.contains claims.sub) =
        some (linkedUser s claims newId salt now pass) :=
      find?_append_cons db [] _ _ (fun v hv => hnosub v hv) hlc
    have hhp : (linkedUser s claims newId salt now pass).hashedPassword ≠
        none := by
      simp [linkedUser, registeredUser, registerNewUser]
    have hfresh' : ∀ v ∈ db, v._id ≠
        (linkedUser s claims newId salt now pass)._id := by
      intro v hv
      rw [linkedUser_id]
      exact hfresh v hv
    simp only [doPassportLogin]
    rw [hfind2, createIfNotExistAndLogin_update_nf s db []
      (linkedUser s claims newId salt now pass) claims newId2 salt2 now2 pass2
      true hhp hfresh']
    simp [hprof]
  · rw [List.filter_append]
    have hdbnil : db.filter
        (fun v => v.thirdPartyIdentifiers.contains claims.sub) = [] := by
      rw [List.filter_eq_nil_iff]
      intro a ha
      simpa using hnosub a ha
    rw [hdbnil]
    simp [linkedUser]

/-- Witness for C7: linking `clW` into an empty store and linking again with
different registration parameters leaves exactly the one linked account. -/
theorem doPassportLogin_idempotent_witness :
    doPassportLogin defaultSettings
      [linkedUser defaultSettings clW 9 3 50 "f00dd00d"] clW 11 4 60
      "beefbeef" true =
      (.ok (linkedUser defaultSettings clW 9 3 50 "f00dd00d"),
       [linkedUser defaultSettings clW 9 3 50 "f00dd00d"]) := by
  have h := (doPassportLogin_idempotent defaultSettings [] clW 9 3 50
    "f00dd00d" (by simp) (by simp)).2.1 11 4 60 "beefbeef"
  simpa using h

/-- C8 counterexample: with an empty store, a passport login whose final
save fails leaves the registered account persisted without the subject
identifier link — the creation was two independent writes, not one atomic
write, so a partial failure leaves a created-but-unlinked account instead
of persisting nothing. -/
theorem createIfNotExist_partial_link_cex :
    (doPassportLogin defaultSettings [] clW 9 3 50 "f00dd00d" false).1 =
      .err ∧
    (doPassportLogin defaultSettings [] clW 9 3 50 "f00dd00d" false).2 ≠ [] ∧
    ∀ v ∈ (doPassportLogin defaultSettings [] clW 9 3 50 "f00dd00d" false).2,
      clW.sub ∉ v.thirdPartyIdentifiers := by
  decide

/-- C8 (amended): creating-and-linking is two writes: the registration
collaborator persists the new account, then a separate save persists the
non-admin flag, the email confirmation and the subject identifier link.
When the save succeeds the account is fully created, confirmed and linked
in the store; when the save fails the registered account remains persisted
without the link and the call reports an error — a partial failure leaves a
created-but-unlinked account rather than nothing. -/
theorem createIfNotExist_two_write_linking (s : Settings) (db : List User)
    (user : Option User) (claims : Claims) (newId salt now : Nat)
    (pass : String)
    (hcreate : user = none ∨ ∃ u, user = some u ∧ u.hashedPassword = none)
    (hfresh : ∀ v ∈ db, v._id ≠ newId) :
    (createIfNotExistAndLogin s db user claims newId salt now pass true =
      (.ok (linkedUser s claims newId salt now pass),
       db ++ [linkedUser s claims newId salt now pass]) ∧
     (linkedUser s claims newId salt now pass).thirdPartyIdentifiers =
       [claims.sub] ∧
     (linkedUser s claims newId salt now pass).emailConfirmedAt = some now) ∧
    (createIfNotExistAndLogin s db user claims newId salt now pass false =
      (.err, db ++ [registeredUser s claims newId salt pass]) ∧
     (registeredUser s claims newId salt pass).thirdPartyIdentifiers =
       []) := by
  refine ⟨⟨?_, rfl, rfl⟩, ?_, rfl⟩
  · rw [createIfNotExistAndLogin_create_nf s db user claims newId salt now pass
      true hcreate hfresh]
    simp
  · rw [createIfNotExistAndLogin_create_nf s db user claims newId salt now pass
      false hcreate hfresh]
    simp

/-- Witness for C8 (amended): with both writes succeeding, the account is
fully created, confirmed and linked. -/
theorem createIfNotExist_two_write_linking_witness :
    createIfNotExistAndLogin defaultSettings [] none clW 9 3 50 "f00dd00d"
      true =
      (.ok (linkedUser defaultSettings clW 9 3 50 "f00dd00d"),
       [linkedUser defaultSettings clW 9 3 50 "f00dd00d"]) := by
  have h := (createIfNotExist_two_write_linking defaultSettings [] none clW 9 3
    50 "f00dd00d" (Or.inl rfl) (by simp)).1.1
  simpa using h
